import Mathlib

/-!
Verification development for the practiti repository.

Two groups of definitions:

* The frontend API client and forms are translated directly from the
  TypeScript sources (`frontend/src/services/apiClient.ts`, the axios error
  interceptor, and the quick-add client form in the Clients page).  JavaScript
  runtime values are embedded as a small `Json` type with JS truthiness and
  the `||` / `??` operators.

* The reminder scheduling and delivery engine described by the specification
  (`SchedulerService`, job store, clock evaluator, notification lifecycle) is
  documented in the repository but its backend sources are not part of this
  tree; those definitions are modelled from the specification text.
-/

/-- A JavaScript runtime value, as needed by the API-client code.
`null` also stands for `undefined` wherever only truthiness or nullishness
matters; field access distinguishes an absent field (`Option.none`) from a
field that is present with value `null`. -/
inductive Json where
  | null
  | str (s : String)
  | num (n : Int)
  | jbool (b : Bool)
  | arr (elems : List Json)
  | obj (fields : List (String × Json))

/-- `v.isNull` : is the value `null`/`undefined`? -/
def Json.isNull : Json → Bool
  | .null => true
  | _ => false

/-- JS truthiness: `null`/`undefined`, the empty string, `0` and `false` are
falsy; every object and array (even empty) is truthy. -/
def Json.truthy : Json → Bool
  | .null => false
  | .str s => !(s == "")
  | .num n => !(n == 0)
  | .jbool b => b
  | .arr _ => true
  | .obj _ => true

/-- Property access `v.k`: a field of an object, `undefined` (here `none`)
for an absent field or for access on a non-object primitive/array. -/
def Json.getField : Json → String → Option Json
  | .obj fields, k => (fields.find? (fun p => p.1 == k)).map (·.2)
  | _, _ => none

/-- `v.isStr` : is the value a string? -/
def Json.isStr : Json → Bool
  | .str _ => true
  | _ => false

/-- `v.isArr` : is the value an array? -/
def Json.isArr : Json → Bool
  | .arr _ => true
  | _ => false

/-- JS `a || b` where `a` is a possibly-undefined value: returns `a` when
truthy, else `b` (returned as-is, even when falsy). -/
def jsOr (a : Option Json) (b : Json) : Json :=
  match a with
  | some v => if v.truthy then v else b
  | none => b

/-- JS `a ?? b` where `a` is a possibly-undefined value: returns `a` unless it
is `null`/`undefined`. -/
def jsNullishOr (a : Option Json) (b : Json) : Json :=
  match a with
  | some v => if v.isNull then b else v
  | none => b

/-- The shape of an axios error object as consumed by the response
interceptor: an optional HTTP response (body and status text), whether a
request object is present, and the underlying `error.message` string. -/
structure AxiosError where
  response : Option (Json × String)
  request : Bool
  message : String

/-- `fixed server-not-responding message` of the interceptor. -/
def serverDownMessage : String :=
  "Сервер не отвечает. Проверьте соединение или попробуйте позднее."

/-- Default message the interceptor starts from. -/
def defaultErrorMessage : String := "Неизвестная ошибка"

/-- The error message computed by the axios response interceptor in
`apiClient.ts`:

```
let message = 'Неизвестная ошибка';
if (error.response) {
  const data = error.response.data || {};
  if (typeof data === 'string') { message = data; }
  else { message = data.detail || data.message || error.response.statusText; }
} else if (error.request) {
  message = 'Сервер не отвечает. ...';
} else if (error.message) {
  message = error.message;
}
return Promise.reject(new Error(message));
```

The result is the JS value assigned to `message` (a non-string can be
assigned when `detail`/`message` hold non-string truthy values). -/
def interceptorMessage (e : AxiosError) : Json :=
  match e.response with
  | some (body, statusText) =>
    let data := if body.truthy then body else Json.obj []
    match data with
    | .str s => .str s
    | d => jsOr (d.getField "detail") (jsOr (d.getField "message") (.str statusText))
  | none =>
    if e.request then .str serverDownMessage
    else if e.message ≠ "" then .str e.message
    else .str defaultErrorMessage

/-- The interceptor's error message as the amended claim words it: when a
response was received, the body itself if it is a non-empty string, else the
body's `detail` field if truthy, else the body's `message` field if truthy,
else the HTTP `statusText` (which may be empty); when the request was sent
but no response arrived, the fixed server-not-responding message; otherwise
the underlying error's message when non-empty, else the default message. -/
def amendedInterceptorMessage (e : AxiosError) : Json :=
  match e.response with
  | some (body, statusText) =>
    if body.isStr && body.truthy then body
    else
      match body.getField "detail" with
      | some d =>
        if d.truthy then d
        else
          match body.getField "message" with
          | some m => if m.truthy then m else .str statusText
          | none => .str statusText
      | none =>
        match body.getField "message" with
        | some m => if m.truthy then m else .str statusText
        | none => .str statusText
  | none =>
    if e.request then .str serverDownMessage
    else if e.message ≠ "" then .str e.message
    else .str defaultErrorMessage

/-- `getClients` response mapping from `apiClient.ts`, applied to the raw
response body:

```
return {
  data: data.items ?? data.data ?? [],
  total: data.total ?? 0,
};
```

The first component is the `data` field of the result, the second the
`total` field. -/
def getClientsResult (body : Json) : Json × Json :=
  (jsNullishOr (body.getField "items") (jsNullishOr (body.getField "data") (.arr [])),
   jsNullishOr (body.getField "total") (.num 0))

/-- The `getClients` result shape as the amended claim words it: the `data`
field is the body's `items` field if present and non-null, else the body's
`data` field if present and non-null, else the empty array; `total` is the
body's `total` field if present and non-null, else `0`. -/
def amendedGetClientsResult (body : Json) : Json × Json :=
  (match body.getField "items" with
   | some v =>
     if v.isNull then
       match body.getField "data" with
       | some w => if w.isNull then Json.arr [] else w
       | none => Json.arr []
     else v
   | none =>
     match body.getField "data" with
     | some w => if w.isNull then Json.arr [] else w
     | none => Json.arr [],
   match body.getField "total" with
   | some t => if t.isNull then Json.num 0 else t
   | none => Json.num 0)

/-- JS `String.prototype.trim()` modelled on the character list: strip
whitespace from both ends. -/
def jsTrim (s : String) : String :=
  ⟨((s.data.dropWhile Char.isWhitespace).reverse.dropWhile Char.isWhitespace).reverse⟩

/-- The regular expression test `/^\+7\d{10}$/.test(s)`: the whole string is
`+7` followed by exactly ten decimal digits. -/
def phoneRegexTest (s : String) : Bool :=
  match s.data with
  | '+' :: '7' :: rest => rest.length == 10 && rest.all Char.isDigit
  | _ => false

/-- Outcome of one submission of the quick-add client form: the payload of
the `createClient` request when one was issued, and the two field error
texts. -/
structure QuickAddOutcome where
  requested : Option (String × String)
  nameError : String
  phoneError : String
deriving DecidableEq

/-- `handleAddSubmit` of the Clients page, translated from the source:
both validations run and set their field error (`''` on success); the
`createClient({ name: addName, phone: addPhone })` request is issued only
when both checks passed.  (State-setting side effects other than the two
error fields and the request are irrelevant to the claims.) -/
def handleAddSubmit (addName addPhone : String) : QuickAddOutcome :=
  let nameOk := !(decide ((jsTrim addName).length < 2))
  let phoneOk := phoneRegexTest (jsTrim addPhone)
  { requested := if nameOk && phoneOk then some (addName, addPhone) else none
    nameError := if nameOk then "" else "Минимум 2 символа"
    phoneError := if phoneOk then "" else "Формат +7XXXXXXXXXX" }

/-- Modelled from the spec: names of the five periodic sweep jobs registered
by `SchedulerService.start` (due-notification sweep every 5 minutes, retry
sweep every 30 minutes, daily reminder sweep at 18:00, expiry-check sweep at
10:00, weekly stats sweep on Monday 09:00); the backend
`scheduler_service.py` is not part of this tree. -/
inductive SweepName where
  | dueNotificationSweep
  | retrySweep
  | dailyReminderSweep
  | expiryCheckSweep
  | weeklyStatsSweep
deriving DecidableEq

/-- Modelled from the spec: the kind of a schedulable job. -/
inductive JobKind where
  | classReminder
  | subscriptionExpiryReminder
  | periodicSweep (name : SweepName)
deriving DecidableEq

/-- Modelled from the spec: the status of a job in the Job Store. -/
inductive JobStatus where
  | scheduled
  | fired
  | cancelled
deriving DecidableEq

/-- Modelled from the spec: a schedulable unit of work.  Timestamps are
minutes in the fixed studio-local timezone. -/
structure Job where
  id : String
  kind : JobKind
  payloadRef : List String
  fireAt : Int
  status : JobStatus
  createdAt : Int
deriving DecidableEq

/-- Modelled from the spec: the textual tag of a job kind used in the
deterministic job identity. -/
def kindTag : JobKind → String
  | .classReminder => "class_reminder"
  | .subscriptionExpiryReminder => "subscription_expiry"
  | .periodicSweep .dueNotificationSweep => "sweep_due_notifications"
  | .periodicSweep .retrySweep => "sweep_retry"
  | .periodicSweep .dailyReminderSweep => "sweep_daily_reminder"
  | .periodicSweep .expiryCheckSweep => "sweep_expiry_check"
  | .periodicSweep .weeklyStatsSweep => "sweep_weekly_stats"

/-- Modelled from the spec: deterministic job identity, derived as
`{kind}:{entityId}:{occurrenceTimestamp}`. -/
def jobId (k : JobKind) (entityId : String) (occurrence : Int) : String :=
  kindTag k ++ ":" ++ entityId ++ ":" ++ toString occurrence

/-- Modelled from the spec: the Job Store, a registry of jobs kept in
insertion order. -/
structure JobStore where
  jobs : List Job
deriving DecidableEq

/-- Modelled from the spec: `put(job)` upserts by the deterministic id — an
existing job with the same id is overwritten in place, otherwise the job is
appended. -/
def JobStore.put (s : JobStore) (j : Job) : JobStore :=
  if s.jobs.any (fun x => x.id == j.id) then
    ⟨s.jobs.map (fun x => if x.id == j.id then j else x)⟩
  else
    ⟨s.jobs ++ [j]⟩

/-- Whether a job is a live Scheduled job due at time `now`. -/
def dueAt (now : Int) (j : Job) : Bool :=
  j.status == .scheduled && decide (j.fireAt ≤ now)

/-- Modelled from the spec: `dueJobs(now)` returns all Scheduled jobs with
`fireAt <= now`, ordered by `fireAt` ascending and, among equal fire times,
by insertion order (the sort is stable). -/
def JobStore.dueJobs (s : JobStore) (now : Int) : List Job :=
  (s.jobs.filter (dueAt now)).mergeSort (fun a b => decide (a.fireAt ≤ b.fireAt))

/-- Modelled from the spec: `nextFireTime` for a one-off offset schedule
("`offset` minutes before event time `eventTime`"): `eventTime - offset` when
the event itself has not passed, `none` when it has. -/
def nextFireTimeOffset (eventTime offset now : Int) : Option Int :=
  if now < eventTime then some (eventTime - offset) else none

/-- Modelled from the spec:
`scheduleClassReminder(clientId, classStart, classType, hoursBefore)`.
Computes the fire time via the clock evaluator; when the event has passed or
the computed fire time is not in the future, returns the unchanged store and
the sentinel `none` ("not scheduled") instead of creating a past-due job;
otherwise upserts the job and returns its deterministic id.
`mkClassReminderJob` is the job it creates. -/
def mkClassReminderJob (clientId : String) (classStart : Int) (classType : String)
    (hoursBefore : Int) (now : Int) : Job :=
  { id := jobId .classReminder clientId classStart
    kind := .classReminder
    payloadRef := [clientId, classType]
    fireAt := classStart - hoursBefore * 60
    status := .scheduled
    createdAt := now }

def scheduleClassReminder (s : JobStore) (clientId : String) (classStart : Int)
    (classType : String) (hoursBefore : Int) (now : Int) : JobStore × Option String :=
  match nextFireTimeOffset classStart (hoursBefore * 60) now with
  | none => (s, none)
  | some f =>
    if f ≤ now then (s, none)
    else
      let j : Job := { mkClassReminderJob clientId classStart classType hoursBefore now with fireAt := f }
      (s.put j, some j.id)

/-- Modelled from the spec:
`scheduleSubscriptionExpiryReminder(subscriptionId, expiryDate, daysBefore)`,
same pattern as `scheduleClassReminder`; `mkExpiryReminderJob` is the job it
creates. -/
def mkExpiryReminderJob (subscriptionId : String) (expiryDate : Int)
    (daysBefore : Int) (now : Int) : Job :=
  { id := jobId .subscriptionExpiryReminder subscriptionId expiryDate
    kind := .subscriptionExpiryReminder
    payloadRef := [subscriptionId]
    fireAt := expiryDate - daysBefore * 1440
    status := .scheduled
    createdAt := now }

def scheduleSubscriptionExpiryReminder (s : JobStore) (subscriptionId : String)
    (expiryDate : Int) (daysBefore : Int) (now : Int) : JobStore × Option String :=
  match nextFireTimeOffset expiryDate (daysBefore * 1440) now with
  | none => (s, none)
  | some f =>
    if f ≤ now then (s, none)
    else
      let j : Job := { mkExpiryReminderJob subscriptionId expiryDate daysBefore now with fireAt := f }
      (s.put j, some j.id)

/-- Modelled from the spec: lifecycle states of the Scheduler Core. -/
inductive SchedulerLifecycle where
  | stopped
  | running
  | draining
deriving DecidableEq

/-- Modelled from the spec: the cadence rule of a periodic sweep. -/
inductive Cadence where
  | everyMinutes (m : Nat)
  | dailyAt (hh mm : Nat)
  | weeklyAt (weekday hh mm : Nat)
deriving DecidableEq

/-- Modelled from the spec: the cadence of each periodic sweep (5-minute
due-notification sweep, 30-minute retry sweep, daily 18:00 reminder sweep,
daily 10:00 expiry check, weekly Monday 09:00 stats sweep). -/
def sweepCadence : SweepName → Cadence
  | .dueNotificationSweep => .everyMinutes 5
  | .retrySweep => .everyMinutes 30
  | .dailyReminderSweep => .dailyAt 18 0
  | .expiryCheckSweep => .dailyAt 10 0
  | .weeklyStatsSweep => .weeklyAt 0 9 0

/-- Modelled from the spec: the fixed set of periodic sweep jobs registered
by `start()`. -/
def periodicSweeps : List SweepName :=
  [.dueNotificationSweep, .retrySweep, .dailyReminderSweep, .expiryCheckSweep, .weeklyStatsSweep]

/-- Modelled from the spec: the Scheduler Core state — its lifecycle flag and
the registered periodic sweeps. -/
structure SchedulerCore where
  lifecycle : SchedulerLifecycle
  registeredSweeps : List SweepName
deriving DecidableEq

/-- Modelled from the spec: `start()` — a no-op on an already Running
scheduler; otherwise registers the fixed set of periodic sweeps and enters
Running. -/
def SchedulerCore.start (s : SchedulerCore) : SchedulerCore :=
  match s.lifecycle with
  | .running => s
  | _ => { lifecycle := .running, registeredSweeps := periodicSweeps }

/-- Modelled from the spec: classification of a delivery failure returned by
the Delivery Channel. -/
inductive FailureKind where
  | transient
  | permanent
  | unknown
deriving DecidableEq

/-- Modelled from the spec: Unknown is treated as Transient for retry
purposes (fail-safe toward retrying rather than dropping). -/
def classifyForRetry : FailureKind → FailureKind
  | .unknown => .transient
  | k => k

/-- Modelled from the spec: result of one Delivery Channel invocation. -/
inductive DeliveryOutcome where
  | success (providerMessageId : String)
  | failure (k : FailureKind)
deriving DecidableEq

/-- Modelled from the spec: lifecycle state of a Notification. -/
inductive NotifState where
  | pending
  | sent
  | failed
  | exhausted
deriving DecidableEq

/-- Modelled from the spec: a Notification's lifecycle bookkeeping. -/
structure Notification where
  state : NotifState
  attemptCount : Nat
  providerMessageId : Option String
  lastError : Option FailureKind
deriving DecidableEq

/-- Modelled from the spec: a freshly created Pending notification. -/
def initialNotification : Notification :=
  { state := .pending, attemptCount := 0, providerMessageId := none, lastError := none }

/-- Modelled from the spec: the bookkeeping applied after one Delivery
Channel invocation — success stores the provider message id and moves to
Sent; a classified permanent failure is terminal Exhausted; a classified
transient (or unknown, treated as transient) failure increments the attempt
count and leaves the notification Failed, or terminal Exhausted once the
maximum attempt bound is reached. -/
def deliverAttempt (maxAttempts : Nat) (n : Notification) (o : DeliveryOutcome) : Notification :=
  match o with
  | .success mid =>
    { n with state := .sent, attemptCount := n.attemptCount + 1, providerMessageId := some mid }
  | .failure k =>
    let c := n.attemptCount + 1
    match classifyForRetry k with
    | .permanent => { n with state := .exhausted, attemptCount := c, lastError := some .permanent }
    | k' =>
      if maxAttempts ≤ c then
        { n with state := .exhausted, attemptCount := c, lastError := some k' }
      else
        { n with state := .failed, attemptCount := c, lastError := some k' }

/-- Modelled from the spec: whether the retry sweep may pick the notification
up (Failed with attempt count below the bound). -/
def retryEligible (maxAttempts : Nat) (n : Notification) : Bool :=
  n.state == .failed && decide (n.attemptCount < maxAttempts)

/-- Modelled from the spec: the events that drive one notification's
lifecycle — a delivery attempt with its outcome (by the dispatcher or the
retry sweep; effective only on a Pending notification), and the retry sweep
marking an eligible Failed notification Pending again. -/
inductive NotifEvent where
  | deliver (o : DeliveryOutcome)
  | retryMark
deriving DecidableEq

/-- Modelled from the spec: one lifecycle step of a notification; events that
do not apply in the current state leave it unchanged. -/
def notifStep (maxAttempts : Nat) (e : NotifEvent) (n : Notification) : Notification :=
  match e with
  | .deliver o => if n.state = .pending then deliverAttempt maxAttempts n o else n
  | .retryMark =>
    if n.state = .failed ∧ n.attemptCount < maxAttempts then { n with state := .pending } else n

/-- A notification after a sequence of lifecycle events. -/
def runNotif (maxAttempts : Nat) (n : Notification) (es : List NotifEvent) : Notification :=
  es.foldl (fun m e => notifStep maxAttempts e m) n

/-- Whether an event is a delivery attempt that applies to the notification
(it is Pending) and reports a failure. -/
def isAppliedFailure (n : Notification) : NotifEvent → Bool
  | .deliver (.failure _) => n.state == .pending
  | _ => false

/-- Whether an event is an applied delivery attempt reporting a failure
classified Permanent. -/
def isAppliedPermanentFailure (n : Notification) : NotifEvent → Bool
  | .deliver (.failure k) => n.state == .pending && k == .permanent
  | _ => false

/-- The number of Failed delivery outcomes along an event sequence. -/
def failedOutcomes (maxAttempts : Nat) (n : Notification) : List NotifEvent → Nat
  | [] => 0
  | e :: es =>
    (if isAppliedFailure n e then 1 else 0) +
      failedOutcomes maxAttempts (notifStep maxAttempts e n) es

/-- Whether some applied delivery attempt along the sequence failed with a
Permanent classification. -/
def permanentSeen (maxAttempts : Nat) (n : Notification) : List NotifEvent → Bool
  | [] => false
  | e :: es =>
    isAppliedPermanentFailure n e || permanentSeen maxAttempts (notifStep maxAttempts e n) es

/-! ## Job Store lemmas -/

/-- `put` leaves exactly one job carrying the inserted id, provided the store
did not already hold duplicates of that id. -/
theorem put_countP_eq_one (s : JobStore) (j : Job)
    (h : s.jobs.countP (fun x => x.id == j.id) ≤ 1) :
    (s.put j).jobs.countP (fun x => x.id == j.id) = 1 := by
  unfold JobStore.put
  by_cases ha : s.jobs.any (fun x => x.id == j.id) = true
  · rw [if_pos ha]
    show List.countP _ (List.map _ _) = 1
    rw [List.countP_map]
    have hsame : s.jobs.countP ((fun x => x.id == j.id) ∘ fun x => if x.id == j.id then j else x)
        = s.jobs.countP (fun x => x.id == j.id) := by
      apply List.countP_congr
      intro x _
      simp only [Function.comp_apply]
      by_cases hx : (x.id == j.id) = true
      · rw [if_pos hx, hx, beq_self_eq_true]
      · rw [if_neg hx]
    rw [hsame]
    have hpos : 0 < s.jobs.countP (fun x => x.id == j.id) := by
      rw [List.countP_pos_iff]
      simpa [List.any_eq_true] using ha
    omega
  · rw [if_neg ha]
    show List.countP _ (_ ++ [j]) = 1
    rw [List.countP_append]
    have hall : ∀ x ∈ s.jobs, ¬(x.id == j.id) = true := by
      simpa [List.any_eq_true] using ha
    have hzero : s.jobs.countP (fun x => x.id == j.id) = 0 :=
      List.countP_eq_zero.mpr hall
    simp [hzero, List.countP_cons]

/-- The upserted job is in the store after `put`. -/
theorem mem_put_self (s : JobStore) (j : Job) : j ∈ (s.put j).jobs := by
  unfold JobStore.put
  by_cases ha : s.jobs.any (fun x => x.id == j.id) = true
  · rw [if_pos ha]
    rw [List.any_eq_true] at ha
    obtain ⟨x, hx, hid⟩ := ha
    exact List.mem_map.mpr ⟨x, hx, by rw [if_pos hid]⟩
  · rw [if_neg ha]
    exact List.mem_append.mpr (Or.inr (List.mem_singleton.mpr rfl))

/-- After `put`, every job carrying the inserted id is the inserted job. -/
theorem put_id_unique (s : JobStore) (j : Job) :
    ∀ x ∈ (s.put j).jobs, x.id = j.id → x = j := by
  unfold JobStore.put
  by_cases ha : s.jobs.any (fun x => x.id == j.id) = true
  · rw [if_pos ha]
    intro x hx hid
    rw [List.mem_map] at hx
    obtain ⟨y, hmem, hy⟩ := hx
    by_cases hyid : (y.id == j.id) = true
    · rw [if_pos hyid] at hy
      exact hy.symm
    · rw [if_neg hyid] at hy
      cases hy
      exact absurd (beq_iff_eq.mpr hid) hyid
  · rw [if_neg ha]
    intro x hx hid
    have hall : ∀ y ∈ s.jobs, ¬(y.id == j.id) = true := by
      simpa [List.any_eq_true] using ha
    rcases List.mem_append.mp hx with hxs | hxj
    · exact absurd (beq_iff_eq.mpr hid) (hall x hxs)
    · exact List.mem_singleton.mp hxj

/-- Characterization of `scheduleClassReminder`: a job is created exactly
when the class has not started and the computed fire time is still in the
future. -/
theorem scheduleClassReminder_eq (s : JobStore) (cid : String) (t : Int) (ct : String)
    (hb now : Int) :
    scheduleClassReminder s cid t ct hb now =
      if now < t ∧ now < t - hb * 60 then
        (s.put (mkClassReminderJob cid t ct hb now), some (jobId .classReminder cid t))
      else (s, none) := by
  unfold scheduleClassReminder nextFireTimeOffset
  by_cases h1 : now < t
  · rw [if_pos h1]
    show (if t - hb * 60 ≤ now then (s, none) else _) = _
    by_cases h2 : t - hb * 60 ≤ now
    · rw [if_pos h2, if_neg (by omega)]
    · rw [if_neg h2, if_pos ⟨h1, by omega⟩]
      rfl
  · rw [if_neg h1]
    show (s, none) = _
    rw [if_neg (fun hc => h1 hc.1)]

/-- Characterization of `scheduleSubscriptionExpiryReminder`, analogous to
`scheduleClassReminder_eq`. -/
theorem scheduleExpiryReminder_eq (s : JobStore) (sid : String) (e : Int) (db now : Int) :
    scheduleSubscriptionExpiryReminder s sid e db now =
      if now < e ∧ now < e - db * 1440 then
        (s.put (mkExpiryReminderJob sid e db now), some (jobId .subscriptionExpiryReminder sid e))
      else (s, none) := by
  unfold scheduleSubscriptionExpiryReminder nextFireTimeOffset
  by_cases h1 : now < e
  · rw [if_pos h1]
    show (if e - db * 1440 ≤ now then (s, none) else _) = _
    by_cases h2 : e - db * 1440 ≤ now
    · rw [if_pos h2, if_neg (by omega)]
    · rw [if_neg h2, if_pos ⟨h1, by omega⟩]
      rfl
  · rw [if_neg h1]
    show (s, none) = _
    rw [if_neg (fun hc => h1 hc.1)]

/-- C1: for every call `scheduleClassReminder(clientId, classStart, classType,
hoursBefore)` made while `classStart` has not yet passed, whenever a job is
created its fire time equals `classStart` minus `hoursBefore` hours
(timestamps are in minutes). -/
theorem scheduleClassReminder_fireAt_correct (s : JobStore) (clientId classType : String)
    (classStart hoursBefore now : Int) (jid : String)
    (_hfuture : now < classStart)
    (hcreated : (scheduleClassReminder s clientId classStart classType hoursBefore now).2 = some jid) :
    ((scheduleClassReminder s clientId classStart classType hoursBefore now).1.jobs.any
      (fun j => j.id == jid && j.fireAt == classStart - hoursBefore * 60)) = true := by
  rw [scheduleClassReminder_eq] at hcreated ⊢
  by_cases hc : now < classStart ∧ now < classStart - hoursBefore * 60
  · rw [if_pos hc] at hcreated ⊢
    simp only at hcreated
    cases hcreated
    rw [List.any_eq_true]
    refine ⟨mkClassReminderJob clientId classStart classType hoursBefore now,
      mem_put_self _ _, ?_⟩
    simp [mkClassReminderJob]
  · rw [if_neg hc] at hcreated
    exact absurd hcreated (by simp)

/-- C1 witness: the §8 scenario with times in minutes of the day — a class at
10:00 (600) with a 2-hour offset scheduled at 00:00 yields a job firing at
08:00 (480). -/
theorem scheduleClassReminder_fireAt_correct_witness :
    ((scheduleClassReminder ⟨[]⟩ "client-123" 600 "hatha" 2 0).1.jobs.any
      (fun j => j.id == "class_reminder:client-123:600" && j.fireAt == 480)) = true :=
  scheduleClassReminder_fireAt_correct ⟨[]⟩ "client-123" "hatha" 600 2 0
    "class_reminder:client-123:600" (by decide) (by decide)

/-- C2: when the computed fire time is already past at scheduling time, both
explicit scheduling calls return the sentinel "not scheduled" (`none`) and
leave the store unchanged — no past-due job is created and no exception is
raised (the functions are total). -/
theorem schedule_past_fireAt_not_scheduled (s : JobStore) (cid ct sid : String)
    (t e hb db now : Int)
    (h1 : t - hb * 60 ≤ now) (h2 : e - db * 1440 ≤ now) :
    scheduleClassReminder s cid t ct hb now = (s, none) ∧
    scheduleSubscriptionExpiryReminder s sid e db now = (s, none) := by
  constructor
  · rw [scheduleClassReminder_eq, if_neg (by omega)]
  · rw [scheduleExpiryReminder_eq, if_neg (by omega)]

/-- C2 witness: the §8 scenario — a class at 10:00 (600) with a 2-hour
offset, scheduled at 09:00 (540, past the 08:00 fire time), is not
scheduled; likewise an expiry reminder whose fire time 500 is past. -/
theorem schedule_past_fireAt_not_scheduled_witness :
    scheduleClassReminder ⟨[]⟩ "client-123" 600 "hatha" 2 540 = (⟨[]⟩, none) ∧
    scheduleSubscriptionExpiryReminder ⟨[]⟩ "sub-456" 500 0 540 = (⟨[]⟩, none) :=
  schedule_past_fireAt_not_scheduled ⟨[]⟩ "client-123" "hatha" "sub-456" 600 500 2 0 540
    (by decide) (by decide)

/-- C3: two scheduling calls for the same (kind, entity, occurrence) derive
the same deterministic job id, and after both calls the store holds exactly
one live job under that id, and it is Scheduled — the second call is an
idempotent overwrite, not a duplicate. -/
theorem schedule_idempotent_upsert (s : JobStore) (cid ct ct' : String)
    (t hb hb' now now' : Int)
    (hwf : s.jobs.countP (fun x => x.id == jobId .classReminder cid t) ≤ 1)
    (h1 : (scheduleClassReminder s cid t ct hb now).2.isSome = true)
    (h2 : (scheduleClassReminder (scheduleClassReminder s cid t ct hb now).1
            cid t ct' hb' now').2.isSome = true) :
    (scheduleClassReminder s cid t ct hb now).2 = some (jobId .classReminder cid t) ∧
    (scheduleClassReminder (scheduleClassReminder s cid t ct hb now).1
        cid t ct' hb' now').2 = some (jobId .classReminder cid t) ∧
    ((scheduleClassReminder (scheduleClassReminder s cid t ct hb now).1
        cid t ct' hb' now').1.jobs.countP
      (fun x => x.id == jobId .classReminder cid t)) = 1 ∧
    (∀ x ∈ (scheduleClassReminder (scheduleClassReminder s cid t ct hb now).1
        cid t ct' hb' now').1.jobs,
      x.id = jobId .classReminder cid t → x.status = .scheduled) := by
  by_cases hc1 : now < t ∧ now < t - hb * 60
  · have hs1 : (scheduleClassReminder s cid t ct hb now).1
        = s.put (mkClassReminderJob cid t ct hb now) := by
      rw [scheduleClassReminder_eq, if_pos hc1]
    have hr1 : (scheduleClassReminder s cid t ct hb now).2
        = some (jobId .classReminder cid t) := by
      rw [scheduleClassReminder_eq, if_pos hc1]
    rw [hs1] at h2 ⊢
    by_cases hc2 : now' < t ∧ now' < t - hb' * 60
    · have hs2 : (scheduleClassReminder (s.put (mkClassReminderJob cid t ct hb now))
          cid t ct' hb' now').1
          = (s.put (mkClassReminderJob cid t ct hb now)).put
              (mkClassReminderJob cid t ct' hb' now') := by
        rw [scheduleClassReminder_eq, if_pos hc2]
      have hr2 : (scheduleClassReminder (s.put (mkClassReminderJob cid t ct hb now))
          cid t ct' hb' now').2 = some (jobId .classReminder cid t) := by
        rw [scheduleClassReminder_eq, if_pos hc2]
      rw [hs2]
      have hid1 : (mkClassReminderJob cid t ct hb now).id = jobId .classReminder cid t := rfl
      have hid2 : (mkClassReminderJob cid t ct' hb' now').id = jobId .classReminder cid t := rfl
      have hwf1 : s.jobs.countP
          (fun x => x.id == (mkClassReminderJob cid t ct hb now).id) ≤ 1 := by
        simpa only [hid1] using hwf
      have hcount1 := put_countP_eq_one s (mkClassReminderJob cid t ct hb now) hwf1
      have hcount1' : (s.put (mkClassReminderJob cid t ct hb now)).jobs.countP
          (fun x => x.id == (mkClassReminderJob cid t ct' hb' now').id) ≤ 1 := by
        rw [hid2]
        rw [hid1] at hcount1
        omega
      have hcount2 := put_countP_eq_one (s.put (mkClassReminderJob cid t ct hb now))
        (mkClassReminderJob cid t ct' hb' now') hcount1'
      refine ⟨hr1, hr2, ?_, ?_⟩
      · rw [hid2] at hcount2
        exact hcount2
      · intro x hx hxid
        have hxj := put_id_unique (s.put (mkClassReminderJob cid t ct hb now))
          (mkClassReminderJob cid t ct' hb' now') x hx (by rw [hxid, hid2])
        rw [hxj]
        rfl
    · have : (scheduleClassReminder (s.put (mkClassReminderJob cid t ct hb now))
          cid t ct' hb' now').2 = none := by
        rw [scheduleClassReminder_eq, if_neg hc2]
      rw [this] at h2
      exact absurd h2 (by simp)
  · have : (scheduleClassReminder s cid t ct hb now).2 = none := by
      rw [scheduleClassReminder_eq, if_neg hc1]
    rw [this] at h1
    exact absurd h1 (by simp)

/-- C3 witness: scheduling the same class reminder twice on an empty store
leaves exactly one Scheduled job under the deterministic id. -/
theorem schedule_idempotent_upsert_witness :
    ((scheduleClassReminder (scheduleClassReminder ⟨[]⟩ "client-123" 600 "hatha" 2 0).1
        "client-123" 600 "vinyasa" 3 10).1.jobs.countP
      (fun x => x.id == jobId .classReminder "client-123" 600)) = 1 :=
  (schedule_idempotent_upsert ⟨[]⟩ "client-123" "hatha" "vinyasa" 600 2 3 0 10
    (by decide) (by decide) (by decide)).2.2.1

/-- C4: for every Job Store state and time `now`, `dueJobs(now)` returns
exactly the Scheduled jobs with `fireAt ≤ now` (never one with
`fireAt > now`), ordered by `fireAt` ascending; among equal fire times the
insertion (store) order is preserved. -/
theorem dueJobs_correct (s : JobStore) (now : Int) :
    List.Perm (s.dueJobs now) (s.jobs.filter (dueAt now)) ∧
    (∀ j ∈ s.dueJobs now, j.status = .scheduled ∧ j.fireAt ≤ now) ∧
    (∀ j ∈ s.jobs, j.status = .scheduled → j.fireAt ≤ now → j ∈ s.dueJobs now) ∧
    (s.dueJobs now).Pairwise (fun a b => a.fireAt ≤ b.fireAt) ∧
    (∀ a b : Job, List.Sublist [a, b] (s.jobs.filter (dueAt now)) → a.fireAt ≤ b.fireAt →
      List.Sublist [a, b] (s.dueJobs now)) := by
  have htrans : ∀ (a b c : Job), decide (a.fireAt ≤ b.fireAt) = true →
      decide (b.fireAt ≤ c.fireAt) = true → decide (a.fireAt ≤ c.fireAt) = true := by
    intro a b c hab hbc
    simp only [decide_eq_true_eq] at hab hbc ⊢
    omega
  have htotal : ∀ (a b : Job),
      (decide (a.fireAt ≤ b.fireAt) || decide (b.fireAt ≤ a.fireAt)) = true := by
    intro a b
    simp only [Bool.or_eq_true, decide_eq_true_eq]
    omega
  refine ⟨List.mergeSort_perm _ _, ?_, ?_, ?_, ?_⟩
  · intro j hj
    rw [JobStore.dueJobs, List.mem_mergeSort, List.mem_filter] at hj
    obtain ⟨-, hdue⟩ := hj
    simpa [dueAt] using hdue
  · intro j hj hst hfa
    rw [JobStore.dueJobs, List.mem_mergeSort, List.mem_filter]
    exact ⟨hj, by simp [dueAt, hst, hfa]⟩
  · exact (List.sorted_mergeSort htrans htotal (s.jobs.filter (dueAt now))).imp
      (fun h => by simpa using h)
  · intro a b hsub hab
    exact List.pair_sublist_mergeSort htrans htotal (by simpa using hab) hsub

/-- C4 witness: a concrete two-job store — the due Scheduled job is returned
by `dueJobs`. -/
theorem dueJobs_correct_witness :
    (⟨"a", .classReminder, [], 7, .scheduled, 0⟩ : Job) ∈
      JobStore.dueJobs ⟨[⟨"a", .classReminder, [], 7, .scheduled, 0⟩,
                         ⟨"b", .classReminder, [], 99, .scheduled, 0⟩]⟩ 10 :=
  (dueJobs_correct ⟨[⟨"a", .classReminder, [], 7, .scheduled, 0⟩,
                     ⟨"b", .classReminder, [], 99, .scheduled, 0⟩]⟩ 10).2.2.1
    _ (by simp) rfl (by decide)

/-- C6: `start()` moves a Stopped scheduler to Running and registers exactly
the five periodic sweeps, pairwise distinct and each with its own cadence;
`start()` on a Running scheduler is a no-op that registers nothing. -/
theorem scheduler_start_correct (s : SchedulerCore) :
    (s.lifecycle = .stopped →
      (s.start).lifecycle = .running ∧
      (s.start).registeredSweeps = periodicSweeps ∧
      periodicSweeps.length = 5 ∧
      periodicSweeps.Nodup ∧
      (∀ x ∈ periodicSweeps, ∀ y ∈ periodicSweeps, sweepCadence x = sweepCadence y → x = y)) ∧
    (s.lifecycle = .running → s.start = s) := by
  obtain ⟨lf, rs⟩ := s
  constructor
  · intro h
    cases h
    exact ⟨rfl, rfl, rfl, by decide, by decide⟩
  · intro h
    cases h
    rfl

/-- C6 witness: starting a concrete Stopped scheduler yields a Running one. -/
theorem scheduler_start_correct_witness :
    (SchedulerCore.start ⟨.stopped, []⟩).lifecycle = .running :=
  ((scheduler_start_correct ⟨.stopped, []⟩).1 rfl).1

/-! ## Notification lifecycle lemmas -/

theorem runNotif_cons (maxA : Nat) (n : Notification) (e : NotifEvent) (es : List NotifEvent) :
    runNotif maxA n (e :: es) = runNotif maxA (notifStep maxA e n) es := rfl

theorem notifStep_of_sent (maxA : Nat) (e : NotifEvent) (n : Notification)
    (h : n.state = .sent) : notifStep maxA e n = n := by
  cases e <;> simp [notifStep, h]

theorem notifStep_of_exhausted (maxA : Nat) (e : NotifEvent) (n : Notification)
    (h : n.state = .exhausted) : notifStep maxA e n = n := by
  cases e <;> simp [notifStep, h]

theorem runNotif_of_sent (maxA : Nat) (n : Notification) (es : List NotifEvent)
    (h : n.state = .sent) : runNotif maxA n es = n := by
  induction es with
  | nil => rfl
  | cons e es ih => rw [runNotif_cons, notifStep_of_sent maxA e n h]; exact ih

theorem runNotif_of_exhausted (maxA : Nat) (n : Notification) (es : List NotifEvent)
    (h : n.state = .exhausted) : runNotif maxA n es = n := by
  induction es with
  | nil => rfl
  | cons e es ih => rw [runNotif_cons, notifStep_of_exhausted maxA e n h]; exact ih

theorem failedOutcomes_of_exhausted (maxA : Nat) (n : Notification) (es : List NotifEvent)
    (h : n.state = .exhausted) : failedOutcomes maxA n es = 0 := by
  induction es with
  | nil => rfl
  | cons e es ih =>
    have hna : isAppliedFailure n e = false := by
      cases e with
      | deliver o => cases o <;> simp [isAppliedFailure, h]
      | retryMark => rfl
    simp only [failedOutcomes, hna, if_false, notifStep_of_exhausted maxA e n h]
    simpa using ih

theorem notifStep_attemptCount_mono (maxA : Nat) :
    ∀ (n : Notification) (e : NotifEvent),
      n.attemptCount ≤ (notifStep maxA e n).attemptCount := by
  intro n e
  cases e with
  | deliver o =>
    simp only [notifStep]
    by_cases h : n.state = .pending
    · rw [if_pos h]
      cases o with
      | success mid => simp [deliverAttempt]
      | failure k =>
        cases k <;> simp only [deliverAttempt, classifyForRetry] <;>
          first
          | (split <;> simp)
          | simp
    · rw [if_neg h]
  | retryMark =>
    simp only [notifStep]
    split <;> simp

theorem runNotif_attemptCount_mono (maxA : Nat) :
    ∀ (n : Notification) (es : List NotifEvent),
      n.attemptCount ≤ (runNotif maxA n es).attemptCount := by
  intro n es
  induction es generalizing n with
  | nil => exact le_refl _
  | cons e es ih =>
    rw [runNotif_cons]
    exact le_trans (notifStep_attemptCount_mono maxA n e) (ih _)

/-- Key invariant behind C5: from a live (Pending or Failed) notification
whose attempt count is below the bound, reaching Exhausted requires either a
Permanent classification or failed outcomes accumulating exactly to the
bound. -/
theorem notif_exhausted_bound_aux (maxA : Nat) :
    ∀ (es : List NotifEvent) (n : Notification),
      (n.state = .pending ∨ n.state = .failed) →
      n.attemptCount < maxA →
      (runNotif maxA n es).state = .exhausted →
      permanentSeen maxA n es = true ∨
        n.attemptCount + failedOutcomes maxA n es = maxA := by
  intro es
  induction es with
  | nil =>
    intro n hst hcnt hex
    rw [runNotif] at hex
    simp only [List.foldl_nil] at hex
    rcases hst with h | h <;> rw [h] at hex <;> cases hex
  | cons e es ih =>
    intro n hst hcnt hex
    rw [runNotif_cons] at hex
    cases e with
    | retryMark =>
      have hhead1 : isAppliedFailure n .retryMark = false := rfl
      have hhead2 : isAppliedPermanentFailure n .retryMark = false := rfl
      by_cases hc : n.state = .failed ∧ n.attemptCount < maxA
      · have hstep : notifStep maxA .retryMark n = { n with state := .pending } := by
          simp [notifStep, hc]
        rw [hstep] at hex
        have hres := ih { n with state := .pending } (Or.inl rfl) hcnt hex
        simp only [permanentSeen, failedOutcomes, hhead1, hhead2, if_false, hstep,
          Bool.false_or]
        simpa using hres
      · have hstep : notifStep maxA .retryMark n = n := by
          simp [notifStep, hc]
        rw [hstep] at hex
        have hres := ih n hst hcnt hex
        simp only [permanentSeen, failedOutcomes, hhead1, hhead2, if_false, hstep,
          Bool.false_or]
        simpa using hres
    | deliver o =>
      by_cases hp : n.state = .pending
      · cases o with
        | success mid =>
          have hstep : notifStep maxA (.deliver (.success mid)) n
              = { n with
                  state := .sent
                  attemptCount := n.attemptCount + 1
                  providerMessageId := some mid } := by
            simp [notifStep, hp, deliverAttempt]
          rw [hstep] at hex
          rw [runNotif_of_sent maxA _ es rfl] at hex
          cases hex
        | failure k =>
          cases k with
          | permanent =>
            left
            simp [permanentSeen, isAppliedPermanentFailure, hp]
          | transient =>
            by_cases hm : maxA ≤ n.attemptCount + 1
            · right
              have hstep : notifStep maxA (.deliver (.failure .transient)) n
                  = { n with
                      state := .exhausted
                      attemptCount := n.attemptCount + 1
                      lastError := some .transient } := by
                simp [notifStep, hp, deliverAttempt, classifyForRetry, hm]
              simp only [failedOutcomes, isAppliedFailure, hp, hstep]
              rw [failedOutcomes_of_exhausted maxA _ es rfl]
              simp
              omega
            · have hstep : notifStep maxA (.deliver (.failure .transient)) n
                  = { n with
                      state := .failed
                      attemptCount := n.attemptCount + 1
                      lastError := some .transient } := by
                simp [notifStep, hp, deliverAttempt, classifyForRetry, hm]
              rw [hstep] at hex
              have hres := ih _ (Or.inr rfl) (by simpa using Nat.lt_of_not_le hm) hex
              rcases hres with hperm | hsum
              · left
                simp only [permanentSeen, isAppliedPermanentFailure, hp, hstep]
                simp [hperm]
              · right
                simp only [failedOutcomes, isAppliedFailure, hp, hstep]
                simp only [Notification.mk.injEq] at hsum ⊢
                simp at hsum ⊢
                omega
          | unknown =>
            by_cases hm : maxA ≤ n.attemptCount + 1
            · right
              have hstep : notifStep maxA (.deliver (.failure .unknown)) n
                  = { n with
                      state := .exhausted
                      attemptCount := n.attemptCount + 1
                      lastError := some .transient } := by
                simp [notifStep, hp, deliverAttempt, classifyForRetry, hm]
              simp only [failedOutcomes, isAppliedFailure, hp, hstep]
              rw [failedOutcomes_of_exhausted maxA _ es rfl]
              simp
              omega
            · have hstep : notifStep maxA (.deliver (.failure .unknown)) n
                  = { n with
                      state := .failed
                      attemptCount := n.attemptCount + 1
                      lastError := some .transient } := by
                simp [notifStep, hp, deliverAttempt, classifyForRetry, hm]
              rw [hstep] at hex
              have hres := ih _ (Or.inr rfl) (by simpa using Nat.lt_of_not_le hm) hex
              rcases hres with hperm | hsum
              · left
                simp only [permanentSeen, isAppliedPermanentFailure, hp, hstep]
                simp [hperm]
              · right
                simp only [failedOutcomes, isAppliedFailure, hp, hstep]
                simp at hsum ⊢
                omega
      · have hfailed : n.state = .failed := by
          rcases hst with h | h
          · exact absurd h hp
          · exact h
        have hstep : notifStep maxA (.deliver o) n = n := by
          simp [notifStep, hp]
        rw [hstep] at hex
        have hres := ih n hst hcnt hex
        have hhead1 : isAppliedFailure n (.deliver o) = false := by
          cases o <;> simp [isAppliedFailure, hfailed]
        have hhead2 : isAppliedPermanentFailure n (.deliver o) = false := by
          cases o <;> simp [isAppliedPermanentFailure, hfailed]
        simp only [permanentSeen, failedOutcomes, hhead1, hhead2, if_false, hstep,
          Bool.false_or]
        simpa using hres

/-- C5: across any sequence of lifecycle events, a Notification's
`attemptCount` never decreases; once Exhausted it undergoes no further
transitions; and starting from a fresh Pending notification it becomes
Exhausted only after a Permanent failure classification or after exactly
`maxAttempts` Failed delivery outcomes. -/
theorem notification_lifecycle_invariants (maxAttempts : Nat) (hpos : 0 < maxAttempts) :
    (∀ (n : Notification) (e : NotifEvent),
      n.attemptCount ≤ (notifStep maxAttempts e n).attemptCount) ∧
    (∀ (n : Notification) (es : List NotifEvent),
      n.attemptCount ≤ (runNotif maxAttempts n es).attemptCount) ∧
    (∀ (n : Notification) (e : NotifEvent),
      n.state = .exhausted → notifStep maxAttempts e n = n) ∧
    (∀ es : List NotifEvent,
      (runNotif maxAttempts initialNotification es).state = .exhausted →
      permanentSeen maxAttempts initialNotification es = true ∨
      failedOutcomes maxAttempts initialNotification es = maxAttempts) := by
  refine ⟨notifStep_attemptCount_mono maxAttempts, runNotif_attemptCount_mono maxAttempts,
    fun n e h => notifStep_of_exhausted maxAttempts e n h, ?_⟩
  intro es hex
  have hres := notif_exhausted_bound_aux maxAttempts es initialNotification
    (Or.inl rfl) hpos hex
  simpa [initialNotification] using hres

/-- C5 witness: with `maxAttempts = 5`, a fresh notification exhausted by a
single Permanent failure satisfies the exhaustion characterization. -/
theorem notification_lifecycle_invariants_witness :
    permanentSeen 5 initialNotification [.deliver (.failure .permanent)] = true ∨
    failedOutcomes 5 initialNotification [.deliver (.failure .permanent)] = 5 :=
  (notification_lifecycle_invariants 5 (by decide)).2.2.2
    [.deliver (.failure .permanent)] (by decide)

/-- C7: a delivery failure classified Unknown is handled exactly as a
Transient one — the resulting notification is identical; in particular while
the incremented attempt count stays below `maxAttempts` the notification is
Failed (not dropped, not terminal) and remains eligible for the retry
sweep. -/
theorem unknown_failure_treated_as_transient (maxAttempts : Nat) (n : Notification)
    (h : n.state = .pending) :
    notifStep maxAttempts (.deliver (.failure .unknown)) n
      = notifStep maxAttempts (.deliver (.failure .transient)) n ∧
    (n.attemptCount + 1 < maxAttempts →
      (notifStep maxAttempts (.deliver (.failure .unknown)) n).state = .failed ∧
      (notifStep maxAttempts (.deliver (.failure .unknown)) n).attemptCount
        = n.attemptCount + 1 ∧
      retryEligible maxAttempts (notifStep maxAttempts (.deliver (.failure .unknown)) n)
        = true) := by
  constructor
  · simp [notifStep, h, deliverAttempt, classifyForRetry]
  · intro hlt
    have hif : ¬(maxAttempts ≤ n.attemptCount + 1) := by omega
    have hstep : notifStep maxAttempts (.deliver (.failure .unknown)) n
        = { n with
            state := .failed
            attemptCount := n.attemptCount + 1
            lastError := some .transient } := by
      simp [notifStep, h, deliverAttempt, classifyForRetry, hif]
    rw [hstep]
    refine ⟨rfl, rfl, ?_⟩
    simp [retryEligible]
    omega

/-- C7 witness: on a fresh Pending notification the Unknown-classified and
Transient-classified failures produce the same result. -/
theorem unknown_failure_treated_as_transient_witness :
    notifStep 5 (.deliver (.failure .unknown)) initialNotification
      = notifStep 5 (.deliver (.failure .transient)) initialNotification :=
  (unknown_failure_treated_as_transient 5 initialNotification rfl).1

/-! ## API client lemmas -/

/-- With a response present, the interceptor message agrees with the
amended-spec reading. -/
theorem interceptor_some_eq (body : Json) (st : String) (req : Bool) (msg : String) :
    interceptorMessage ⟨some (body, st), req, msg⟩
      = amendedInterceptorMessage ⟨some (body, st), req, msg⟩ := by
  cases body with
  | null => rfl
  | str sv =>
    by_cases hs : sv = ""
    · subst hs; rfl
    · have hb : (sv == "") = false := by simpa using hs
      simp [interceptorMessage, amendedInterceptorMessage, Json.truthy, Json.isStr, hb]
  | num nv =>
    by_cases hn : nv = 0
    · subst hn; rfl
    · have hb : (nv == 0) = false := by simpa using hn
      simp [interceptorMessage, amendedInterceptorMessage, Json.truthy, Json.isStr,
        Json.getField, jsOr, hb]
  | jbool bv => cases bv <;> rfl
  | arr xs => rfl
  | obj fs =>
    simp only [interceptorMessage, amendedInterceptorMessage]
    cases hd : Json.getField (Json.obj fs) "detail" with
    | some d =>
      by_cases hdt : d.truthy = true
      · simp [jsOr, hd, hdt, Json.isStr, Json.truthy]
      · cases hm : Json.getField (Json.obj fs) "message" with
        | some m =>
          by_cases hmt : m.truthy = true
          · simp [jsOr, hd, hm, hdt, hmt, Json.isStr, Json.truthy]
          · simp [jsOr, hd, hm, hdt, hmt, Json.isStr, Json.truthy]
        | none => simp [jsOr, hd, hm, hdt, Json.isStr, Json.truthy]
    | none =>
      cases hm : Json.getField (Json.obj fs) "message" with
      | some m =>
        by_cases hmt : m.truthy = true
        · simp [jsOr, hd, hm, hmt, Json.isStr, Json.truthy]
        · simp [jsOr, hd, hm, hmt, Json.isStr, Json.truthy]
      | none => simp [jsOr, hd, hm, Json.isStr, Json.truthy]

/-- With a response present, an empty interceptor message forces an empty
`statusText`. -/
theorem interceptor_some_empty (body : Json) (st : String) (req : Bool) (msg : String)
    (h : interceptorMessage ⟨some (body, st), req, msg⟩ = Json.str "") : st = "" := by
  rw [interceptor_some_eq] at h
  simp only [amendedInterceptorMessage] at h
  by_cases hbs : (body.isStr && body.truthy) = true
  · rw [if_pos hbs] at h
    subst h
    simp [Json.truthy] at hbs
  · rw [if_neg hbs] at h
    cases hd : Json.getField body "detail" with
    | some d =>
      rw [hd] at h
      dsimp only at h
      by_cases hdt : d.truthy = true
      · rw [if_pos hdt] at h
        subst h
        simp [Json.truthy] at hdt
      · rw [if_neg hdt] at h
        cases hm : Json.getField body "message" with
        | some m =>
          rw [hm] at h
          dsimp only at h
          by_cases hmt : m.truthy = true
          · rw [if_pos hmt] at h
            subst h
            simp [Json.truthy] at hmt
          · rw [if_neg hmt] at h
            injection h with h'
        | none =>
          rw [hm] at h
          dsimp only at h
          injection h with h'
    | none =>
      rw [hd] at h
      dsimp only at h
      cases hm : Json.getField body "message" with
      | some m =>
        rw [hm] at h
        dsimp only at h
        by_cases hmt : m.truthy = true
        · rw [if_pos hmt] at h
          subst h
          simp [Json.truthy] at hmt
        · rw [if_neg hmt] at h
          injection h with h'
      | none =>
        rw [hm] at h
        dsimp only at h
        injection h with h'

/-- C8 counterexample: a response with an empty body and empty `statusText`
makes the interceptor reject with an Error whose message is the empty string,
contradicting "the message is never empty". -/
theorem interceptor_message_can_be_empty :
    interceptorMessage ⟨some (Json.null, ""), true, "boom"⟩ = Json.str "" := rfl

/-- C8 amended: the interceptor message follows the truthiness-based
precedence (body if a non-empty string, else truthy `detail`, else truthy
`message`, else `statusText`; without a response, the fixed
server-not-responding message or the underlying non-empty error message or
the default), and it can be the empty string only when a response arrived
with an empty `statusText` and no usable body field. -/
theorem interceptor_message_amended (e : AxiosError) :
    interceptorMessage e = amendedInterceptorMessage e ∧
    (interceptorMessage e = Json.str "" → ∃ body, e.response = some (body, "")) := by
  obtain ⟨resp, req, msg⟩ := e
  cases resp with
  | none =>
    refine ⟨rfl, ?_⟩
    intro h
    simp only [interceptorMessage] at h
    by_cases hr : req = true
    · rw [if_pos hr] at h
      injection h with h'
      simp [serverDownMessage] at h'
    · rw [if_neg hr] at h
      by_cases hm : msg ≠ ""
      · rw [if_pos hm] at h
        injection h with h'
        exact absurd h' hm
      · rw [if_neg hm] at h
        injection h with h'
        simp [defaultErrorMessage] at h'
  | some p =>
    obtain ⟨body, st⟩ := p
    refine ⟨interceptor_some_eq body st req msg, ?_⟩
    intro h
    have hst := interceptor_some_empty body st req msg h
    exact ⟨body, by rw [hst]⟩

/-- C8 amended witness: a concrete error without response and without
request. -/
theorem interceptor_message_amended_witness :
    interceptorMessage ⟨none, false, "oops"⟩
      = amendedInterceptorMessage ⟨none, false, "oops"⟩ :=
  (interceptor_message_amended ⟨none, false, "oops"⟩).1

/-- C9 counterexample: a backend body whose `items` field is the number `5`
makes `getClients` return `data = 5`, which is not an array — the result's
`data` field is not always an array. -/
theorem getClients_data_not_always_array :
    (getClientsResult (Json.obj [("items", Json.num 5)])).1 = Json.num 5 ∧
    Json.isArr (getClientsResult (Json.obj [("items", Json.num 5)])).1 = false :=
  ⟨rfl, rfl⟩

/-- C9 amended: `getClients` returns `data` = the body's `items` field if
present and non-null, else the body's `data` field if present and non-null,
else the empty array (so never null/undefined), and `total` = the body's
`total` field if present and non-null, else `0`; the `data` field is an
array whenever the backend's `items`/`data` fields, when present, are null
or arrays. -/
theorem getClients_shape_amended (body : Json) :
    getClientsResult body = amendedGetClientsResult body ∧
    (getClientsResult body).1 ≠ Json.null ∧
    ((∀ v, body.getField "items" = some v → v.isNull = true ∨ v.isArr = true) →
     (∀ v, body.getField "data" = some v → v.isNull = true ∨ v.isArr = true) →
     Json.isArr (getClientsResult body).1 = true) := by
  refine ⟨rfl, ?_, ?_⟩
  · simp only [getClientsResult, jsNullishOr]
    cases hi : body.getField "items" with
    | some v =>
      by_cases hv : v.isNull = true
      · simp only [hv, if_true]
        cases hd : body.getField "data" with
        | some w =>
          by_cases hw : w.isNull = true
          · simp [hw]
          · simp only [hw, if_false]
            cases w <;> simp_all [Json.isNull]
        | none => simp
      · simp only [hv, if_false]
        cases v <;> simp_all [Json.isNull]
    | none =>
      cases hd : body.getField "data" with
      | some w =>
        by_cases hw : w.isNull = true
        · simp [hw]
        · simp only [hw, if_false]
          cases w <;> simp_all [Json.isNull]
      | none => simp
  · intro hitems hdata
    simp only [getClientsResult, jsNullishOr]
    cases hi : body.getField "items" with
    | some v =>
      have hv := hitems v hi
      by_cases hvn : v.isNull = true
      · simp only [hvn, if_true]
        cases hd : body.getField "data" with
        | some w =>
          have hw := hdata w hd
          by_cases hwn : w.isNull = true
          · simp [hwn, Json.isArr]
          · simp only [hwn, if_false]
            rcases hw with h1 | h2
            · exact absurd h1 hwn
            · exact h2
        | none => simp [Json.isArr]
      · simp only [hvn, if_false]
        rcases hv with h1 | h2
        · exact absurd h1 hvn
        · exact h2
    | none =>
      cases hd : body.getField "data" with
      | some w =>
        have hw := hdata w hd
        by_cases hwn : w.isNull = true
        · simp [hwn, Json.isArr]
        · simp only [hwn, if_false]
          rcases hw with h1 | h2
          · exact absurd h1 hwn
          · exact h2
      | none => simp [Json.isArr]

/-- C9 amended witness: on a body with neither `items` nor `data`,
`getClients` yields an (empty) array. -/
theorem getClients_shape_amended_witness :
    Json.isArr (getClientsResult (Json.obj [])).1 = true :=
  (getClients_shape_amended (Json.obj [])).2.2
    (fun v hv => by simp [Json.getField] at hv)
    (fun v hv => by simp [Json.getField] at hv)

/-- C10: the quick-add form issues the `createClient` request exactly when
the trimmed name has at least two characters and the trimmed phone matches
`/^\+7\d{10}$/`; a failing check suppresses the request and sets the
corresponding field error message. -/
theorem quickadd_validation_correct (name phone : String) :
    ((handleAddSubmit name phone).requested ≠ none ↔
      2 ≤ (jsTrim name).length ∧ phoneRegexTest (jsTrim phone) = true) ∧
    ((jsTrim name).length < 2 →
      (handleAddSubmit name phone).requested = none ∧
      (handleAddSubmit name phone).nameError = "Минимум 2 символа") ∧
    (phoneRegexTest (jsTrim phone) = false →
      (handleAddSubmit name phone).requested = none ∧
      (handleAddSubmit name phone).phoneError = "Формат +7XXXXXXXXXX") := by
  by_cases h1 : (jsTrim name).length < 2 <;>
    by_cases h2 : phoneRegexTest (jsTrim phone) = true <;>
      simp [handleAddSubmit, h1, h2] <;> omega

/-- C10 witness: a malformed phone suppresses the request and sets the phone
error. -/
theorem quickadd_validation_correct_witness :
    (handleAddSubmit "Ann" "123").requested = none ∧
    (handleAddSubmit "Ann" "123").phoneError = "Формат +7XXXXXXXXXX" :=
  (quickadd_validation_correct "Ann" "123").2.2 (by decide)

